import Mathlib

/-!
Verification development for the samflix transcoder pipeline.

The definitions below are shallow embeddings of the TypeScript sources:
`src/transcoder_win_nvenc.ts` (rendition planning, encode loop, subtitle
collection, master playlist synthesis, SRT timestamp arithmetic),
`src/index.ts` (per-movie and per-series orchestration) and the database
operations module (runnable-entry queries, series completion check).
JavaScript string primitives (`replace` of the first occurrence,
`startsWith`, `endsWith`, `includes`, `split`, `padStart`, `toLowerCase`)
are modelled by executable character-list functions.
-/

/-! ## Character and string helpers (JS string primitive semantics) -/

/-- Does the first list start with the second (JS `startsWith` on chars)? -/
def listStartsWith : List Char → List Char → Bool
  | _, [] => true
  | [], _ :: _ => false
  | c :: cs, p :: ps => c == p && listStartsWith cs ps

/-- JS `String.prototype.startsWith`. -/
def strStartsWith (s pat : String) : Bool :=
  listStartsWith s.data pat.data

/-- JS `String.prototype.endsWith`. -/
def strEndsWith (s pat : String) : Bool :=
  listStartsWith s.data.reverse pat.data.reverse

/-- Does the list contain the pattern as a contiguous sublist (JS `includes`)? -/
def listContainsSub : List Char → List Char → Bool
  | s, pat =>
    if listStartsWith s pat then true
    else match s with
      | [] => false
      | _ :: cs => listContainsSub cs pat

/-- JS `String.prototype.includes`. -/
def strContainsSub (s pat : String) : Bool :=
  listContainsSub s.data pat.data

/-- Remove the first occurrence of `pat` (JS `replace(pat, "")` on chars). -/
def removeFirstAux (pat : List Char) : List Char → List Char
  | [] => []
  | c :: cs =>
    if listStartsWith (c :: cs) pat then (c :: cs).drop pat.length
    else c :: removeFirstAux pat cs

/-- JS `s.replace(pat, "")`: removes the first occurrence only. -/
def jsRemoveFirst (s pat : String) : String :=
  String.mk (removeFirstAux pat.data s.data)

/-- JS `String.prototype.toLowerCase` (ASCII adequate for the language codes used). -/
def strToLower (s : String) : String :=
  String.mk (s.data.map Char.toLower)

/-- JS `s.charAt(0).toUpperCase() + s.slice(1)`. -/
def capitalizeStr (s : String) : String :=
  match s.data with
  | [] => s
  | c :: cs => String.mk (c.toUpper :: cs)

/-- JS `String.prototype.substring(0, n)`. -/
def strTake (s : String) (n : Nat) : String :=
  String.mk (s.data.take n)

/-- JS `String.prototype.split` with a single-character separator. -/
def splitOnChar (sep : Char) : List Char → List (List Char)
  | [] => [[]]
  | c :: cs =>
    if c == sep then [] :: splitOnChar sep cs
    else
      match splitOnChar sep cs with
      | [] => [[c]]
      | g :: gs => (c :: g) :: gs

/-- Decimal value of a digit string, folding from the most significant digit. -/
def digitsVal (cs : List Char) : Nat :=
  cs.foldl (fun a c => a * 10 + (c.toNat - 48)) 0

/-- Parse a non-empty all-digit character list as a decimal number
(the defined behaviour of JS `Number`/`parseInt` on the valid inputs here). -/
def digitsToNat (cs : List Char) : Option Nat :=
  if cs ≠ [] ∧ cs.all (·.isDigit) then some (digitsVal cs) else none

/-- JS `String.prototype.padStart(w, c)` on chars. -/
def padStartChars (cs : List Char) (w : Nat) (c : Char) : List Char :=
  List.replicate (w - cs.length) c ++ cs

/-- JS `v.toString().padStart(w, "0")` for a number `v`. -/
def natPadded (v w : Nat) : String :=
  String.mk (padStartChars (Nat.repr v).data w '0')

/-! ## SRT timestamp arithmetic (`addDelay`, transcoder_win_nvenc.ts 1251-1279) -/

/-- Parse `"HH:MM:SS,mmm"` into `(hours, minutes, seconds, milliseconds)`.
Mirrors `timeStr.split(",")` followed by `timepart.split(":").map(Number)`. -/
def parseSrtTime (timeStr : String) : Option (Nat × Nat × Nat × Nat) :=
  match splitOnChar ',' timeStr.data with
  | [timepart, mspart] =>
    match splitOnChar ':' timepart with
    | [hs, ms, ss] =>
      match digitsToNat hs, digitsToNat ms, digitsToNat ss, digitsToNat mspart with
      | some h, some m, some s, some msv => some (h, m, s, msv)
      | _, _, _, _ => none
    | _ => none
  | _ => none

/-- Total milliseconds of a parsed timestamp, as computed by `addDelay`. -/
def srtTotalMs (h m s ms : Nat) : Nat :=
  ms + s * 1000 + m * 60 * 1000 + h * 60 * 60 * 1000

/-- Re-serialize a total-millisecond count as `"HH:MM:SS,mmm"` with
`padStart` formatting, exactly as the tail of `addDelay` does. -/
def formatSrtTime (totalMs : Nat) : String :=
  let newHours := totalMs / (60 * 60 * 1000)
  let rem1 := totalMs % (60 * 60 * 1000)
  let newMinutes := rem1 / (60 * 1000)
  let rem2 := rem1 % (60 * 1000)
  let newSeconds := rem2 / 1000
  let newMs := rem2 % 1000
  natPadded newHours 2 ++ ":" ++ natPadded newMinutes 2 ++ ":" ++
    natPadded newSeconds 2 ++ "," ++ natPadded newMs 3

/-- `addDelay(timeStr, delayMs)`: parse, add the delay to the total
milliseconds, re-serialize.  `none` models the NaN garbage a malformed
timestamp would produce in the original. -/
def addDelay (timeStr : String) (delayMs : Nat) : Option String :=
  match parseSrtTime timeStr with
  | none => none
  | some (h, m, s, ms) => some (formatSrtTime (srtTotalMs h m s ms + delayMs))

/-! ## Rendition planner (`transcodeResolutions`, transcoder_win_nvenc.ts 66-115) -/

structure RenditionSpec where
  name : String
  width : Nat
  height : Nat
  crf : Nat
  maxrate : String
  bufsize : String
deriving DecidableEq, Repr

def res1080p : RenditionSpec :=
  { name := "1080p", width := 1920, height := 1080, crf := 26,
    maxrate := "4000k", bufsize := "6000k" }

def res720p : RenditionSpec :=
  { name := "720p", width := 1280, height := 720, crf := 28,
    maxrate := "2500k", bufsize := "4000k" }

def res480p : RenditionSpec :=
  { name := "480p", width := 854, height := 480, crf := 30,
    maxrate := "1500k", bufsize := "2500k" }

def allResolutions : List RenditionSpec := [res1080p, res720p, res480p]

/-- The rendition-selection cascade of `transcodeResolutions`:
threshold branches on the source resolution, then the
`find(res.height <= height) || last` fallback. -/
def selectResolutions (width height : Nat) : List RenditionSpec :=
  if 2160 ≤ height ∨ 3840 ≤ width then
    allResolutions.filter (fun r => r.name == "1080p")
  else if 1080 ≤ height ∨ 1920 ≤ width then
    allResolutions.filter (fun r => r.name == "1080p")
  else if 720 ≤ height ∨ 1280 ≤ width then
    allResolutions.filter (fun r => r.name == "720p")
  else
    match allResolutions.find? (fun r => r.height ≤ height) with
    | some r => [r]
    | none => [allResolutions.getLast (by decide)]

/-! ## Encode loop with hardware/software fallback (transcoder_win_nvenc.ts 124-238) -/

/-- Environment outcome of the two encode attempts for one rendition:
the hardware attempt succeeds, or it fails and the software fallback
succeeds, or both attempts fail. -/
inductive EncodeOutcome
  | gpuOk
  | cpuOk
  | bothFail
deriving DecidableEq, Repr

/-- One iteration body: the inner GPU `try`/`catch` with the CPU fallback;
a double failure reaches the outer `catch`, which rethrows. -/
def encodeRendition : EncodeOutcome → Except Unit Unit
  | .bothFail => .error ()
  | _ => .ok ()

/-- The `for (const resolution of resolutions)` loop: a rethrown error
propagates out of `transcodeResolutions`, ending the loop. -/
def transcodeLoop (outcome : String → EncodeOutcome) :
    List RenditionSpec → Except Unit Unit
  | [] => .ok ()
  | r :: rest =>
    match encodeRendition (outcome r.name) with
    | .error e => .error e
    | .ok _ => transcodeLoop outcome rest

/-- Renditions for which an encode was attempted before the loop ended. -/
def attemptedRenditions (outcome : String → EncodeOutcome) :
    List RenditionSpec → List RenditionSpec
  | [] => []
  | r :: rest =>
    match encodeRendition (outcome r.name) with
    | .error _ => [r]
    | .ok _ => r :: attemptedRenditions outcome rest

/-- Renditions whose encode completed successfully before the loop ended. -/
def succeededRenditions (outcome : String → EncodeOutcome) :
    List RenditionSpec → List RenditionSpec
  | [] => []
  | r :: rest =>
    match encodeRendition (outcome r.name) with
    | .error _ => []
    | .ok _ => r :: succeededRenditions outcome rest

/-- `transcoder` (transcoderService.ts) runs `writeMasterPlaylist` only when
`transcodeResolutions` returned without throwing. -/
def masterWrittenAfterEntryRun (outcome : String → EncodeOutcome)
    (rs : List RenditionSpec) : Bool :=
  match transcodeLoop outcome rs with
  | .ok _ => true
  | .error _ => false

/-- Outcome environment used for the concrete double-failure scenario:
both attempts fail for the 1080p rendition, the hardware attempt
succeeds for every other rendition. -/
def doubleFailOn1080p : String → EncodeOutcome :=
  fun n => if n == "1080p" then .bothFail else .gpuOk

/-! ## Job store status and runnable-entry queries (dbOperations) -/

inductive TranscodeStatus
  | PENDING
  | QUEUED
  | IN_PROGRESS
  | COMPLETED
  | FAILED
deriving DecidableEq, Repr

structure MovieRow where
  id : String
  title : String
  filePath : String
  transcodeStatus : TranscodeStatus
  playPath : Option String
deriving DecidableEq, Repr

structure EpisodeRow where
  id : String
  title : String
  filePath : String
  transcodeStatus : TranscodeStatus
  seasonNumber : Nat
  episodeNumber : Nat
  playPath : Option String
deriving DecidableEq, Repr

structure SeriesRow where
  id : String
  title : String
  transcodeStatus : TranscodeStatus
  episodes : List EpisodeRow
deriving DecidableEq, Repr

/-- The `where: OR [QUEUED, IN_PROGRESS]` clause shared by
`getQueuedTranscodeMovies` and `getQueuedTranscodeTvSeries`. -/
def queuedTranscodeFilter (s : TranscodeStatus) : Bool :=
  s == .QUEUED || s == .IN_PROGRESS

/-- `prisma.movie.findMany` with the runnable filter, modelled as a filter
over the catalog in store order. -/
def getQueuedTranscodeMovies (movies : List MovieRow) : List MovieRow :=
  movies.filter (fun m => queuedTranscodeFilter m.transcodeStatus)

/-- `prisma.tvSeries.findMany` with the runnable filter. -/
def getQueuedTranscodeTvSeries (series : List SeriesRow) : List SeriesRow :=
  series.filter (fun s => queuedTranscodeFilter s.transcodeStatus)

/-- `checkAllEpisodesCompleted`: the count of episodes whose status is not
COMPLETED must be zero. -/
def checkAllEpisodesCompleted (statuses : List TranscodeStatus) : Bool :=
  statuses.countP (fun s => !(s == .COMPLETED)) == 0

/-! ## Per-movie orchestration (`main`, index.ts 33-91) -/

inductive PipelineEvent
  | setMovieStatus (s : TranscodeStatus)
  | setMoviePlayPath
  | setEpisodeStatus (s : TranscodeStatus)
  | setEpisodePlayPath
  | setSeriesStatus (s : TranscodeStatus)
  | invokeTranscoder
  | invalidateCache
deriving DecidableEq, Repr

/-- The event trace of the per-movie loop body, as a function of the three
environment observations it branches on: the source file's existence, the
idempotency check `fs.existsSync(<expected master.m3u8>)`, and whether the
`transcoder` call returns without throwing. -/
def processMovieEvents (fileOk manifestExists transcodeOk : Bool) :
    List PipelineEvent :=
  if !fileOk then [.setMovieStatus .FAILED]
  else
    .setMovieStatus .IN_PROGRESS ::
      (if manifestExists then
        [.setMovieStatus .COMPLETED, .setMoviePlayPath, .invalidateCache]
      else if transcodeOk then
        [.invokeTranscoder, .setMovieStatus .COMPLETED, .setMoviePlayPath,
          .invalidateCache]
      else [.invokeTranscoder, .setMovieStatus .FAILED])

/-- Number of `transcoder` invocations recorded in a trace. -/
def transcoderInvocationCount (evs : List PipelineEvent) : Nat :=
  evs.countP (fun e => e == .invokeTranscoder)

/-- The movie status persisted last in a trace. -/
def finalMovieStatus (evs : List PipelineEvent) : Option TranscodeStatus :=
  (evs.filterMap (fun e =>
    match e with
    | .setMovieStatus s => some s
    | _ => none)).getLast?

/-- The event trace of the per-episode loop body (index.ts 117-192), as a
function of the same three environment observations: the episode file's
existence, the idempotency check on the expected episode `master.m3u8`,
and whether the `transcoder` call returns without throwing.  It mirrors
the movie loop with episode-level status and play-path writes. -/
def processEpisodeEvents (fileOk manifestExists transcodeOk : Bool) :
    List PipelineEvent :=
  if !fileOk then [.setEpisodeStatus .FAILED]
  else
    .setEpisodeStatus .IN_PROGRESS ::
      (if manifestExists then
        [.setEpisodeStatus .COMPLETED, .setEpisodePlayPath, .invalidateCache]
      else if transcodeOk then
        [.invokeTranscoder, .setEpisodeStatus .COMPLETED, .setEpisodePlayPath,
          .invalidateCache]
      else [.invokeTranscoder, .setEpisodeStatus .FAILED])

/-- The episode status persisted last in a trace. -/
def finalEpisodeStatus (evs : List PipelineEvent) : Option TranscodeStatus :=
  (evs.filterMap (fun e =>
    match e with
    | .setEpisodeStatus s => some s
    | _ => none)).getLast?

/-! ## Per-series orchestration (`main`, index.ts 94-227) -/

/-- What happened to one episode inside the series loop: its file was
missing, the idempotency check skipped it, it was transcoded, or the
transcode threw. -/
inductive EpisodeOutcome
  | missingFile
  | alreadyDone
  | transcoded
  | failed
deriving DecidableEq, Repr

/-- The status the episode's row holds after its loop iteration. -/
def episodeFinalStatus : EpisodeOutcome → TranscodeStatus
  | .missingFile => .FAILED
  | .alreadyDone => .COMPLETED
  | .transcoded => .COMPLETED
  | .failed => .FAILED

/-- Does the outcome set `seriesHasFailures`? -/
def episodeFailureFlag : EpisodeOutcome → Bool
  | .missingFile => true
  | .failed => true
  | _ => false

/-- The event trace of one episode's loop iteration. -/
def episodeEvents : EpisodeOutcome → List PipelineEvent
  | .missingFile => [.setEpisodeStatus .FAILED]
  | .alreadyDone =>
    [.setEpisodeStatus .IN_PROGRESS, .setEpisodeStatus .COMPLETED,
      .setEpisodePlayPath, .invalidateCache]
  | .transcoded =>
    [.setEpisodeStatus .IN_PROGRESS, .invokeTranscoder,
      .setEpisodeStatus .COMPLETED, .setEpisodePlayPath, .invalidateCache]
  | .failed =>
    [.setEpisodeStatus .IN_PROGRESS, .invokeTranscoder,
      .setEpisodeStatus .FAILED]

/-- The terminal series status: COMPLETED when `checkAllEpisodesCompleted`
holds over the episodes' persisted statuses and no iteration set
`seriesHasFailures`, otherwise FAILED. -/
def seriesTerminalStatus (eps : List EpisodeOutcome) : TranscodeStatus :=
  if checkAllEpisodesCompleted (eps.map episodeFinalStatus)
      && !(eps.any episodeFailureFlag) then
    .COMPLETED
  else .FAILED

/-- The event trace of one series: IN_PROGRESS first, then the episode
iterations in (season, episode) order, then the terminal status. -/
def processSeriesEvents (eps : List EpisodeOutcome) : List PipelineEvent :=
  (PipelineEvent.setSeriesStatus .IN_PROGRESS :: (eps.map episodeEvents).flatten)
    ++ [PipelineEvent.setSeriesStatus (seriesTerminalStatus eps)]

/-! ## Subtitle collection (`copySubtitles`, transcoder_win_nvenc.ts 495-961) -/

structure LangInfo where
  name : String
  code : String
  default : Bool
deriving DecidableEq, Repr

/-- Fallback for an unrecognized language tag: capitalized display name,
two-letter code, not default. -/
def langFallbackInfo (l : String) : LangInfo :=
  { name := capitalizeStr l, code := strTake l 2, default := false }

structure SubEntry where
  file : String
  language : String
  name : String
deriving DecidableEq, Repr

/-- The language map used for embedded subtitle streams. -/
def embeddedSubLangInfo (l : String) : Option LangInfo :=
  if l == "en" then some { name := "English", code := "en", default := true }
  else if l == "eng" then some { name := "English", code := "eng", default := true }
  else if l == "hin" then some { name := "Hindi", code := "hin", default := false }
  else if l == "hi" then some { name := "Hindi", code := "hi", default := false }
  else if l == "fre" then some { name := "French", code := "fr", default := false }
  else if l == "spa" then some { name := "Spanish", code := "es", default := false }
  else if l == "ger" then some { name := "German", code := "de", default := false }
  else if l == "jpn" then some { name := "Japanese", code := "ja", default := false }
  else none

/-- The allow-list guard before an embedded subtitle stream is extracted. -/
def embeddedSubAllowed (l : String) : Bool :=
  l == "und" || l == "en" || l == "eng" || l == "hin" || l == "hi"

/-- The observable filesystem/container state `copySubtitles` reads. -/
structure SubFsState where
  embeddedTags : List (Option String)
  parentFiles : List String
  subsDirs : List (String × List String)
  presentFiles : List String
  inputFileName : String

/-- Success or failure of the external conversion processes `copySubtitles`
spawns, one flag per unit of work. -/
structure SubOracle where
  embedOk : Nat → Bool
  parentOk : Bool
  dirFileOk : String → String → Bool
  copyOk : String → Bool

/-- Embedded-stream extraction loop: language from the stream tag
(lower-cased, `"unknown"` when absent), allow-list filter, and a pushed
entry per successful extraction. -/
def embeddedSubEntriesAux (o : SubOracle) :
    Nat → List (Option String) → List SubEntry
  | _, [] => []
  | i, tag :: rest =>
    let language :=
      match tag with
      | some t => strToLower t
      | none => "unknown"
    let info := (embeddedSubLangInfo language).getD (langFallbackInfo language)
    if embeddedSubAllowed language && o.embedOk i then
      { file := "subs_" ++ language ++ ".vtt", language := language,
        name := info.name } :: embeddedSubEntriesAux o (i + 1) rest
    else embeddedSubEntriesAux o (i + 1) rest

def embeddedSubEntries (o : SubOracle) (tags : List (Option String)) :
    List SubEntry :=
  embeddedSubEntriesAux o 0 tags

/-- Parent-folder `.srt` heuristic: the first `.srt` sibling is always
treated as English (with the 375 ms timing adjustment applied). -/
def parentSrtEntries (o : SubOracle) (parentFiles : List String) :
    List SubEntry :=
  let srtFiles := parentFiles.filter (fun f => strEndsWith (strToLower f) ".srt")
  if 0 < srtFiles.length then
    if o.parentOk then [{ file := "subs_eng.vtt", language := "eng", name := "English" }]
    else []
  else []

def possibleSubDirs : List String := ["subs", "Subs", "subtitles", "Subtitles"]

/-- `path.basename(file, ".srt")`. -/
def baseNameNoSrt (f : String) : String :=
  if strEndsWith f ".srt" then String.mk (f.data.take (f.data.length - 4)) else f

/-- Language guess for a `.srt` file found in a subtitle subdirectory. -/
def dirSrtLang (inputFileName baseName : String) : String × String :=
  if strContainsSub (strToLower baseName) "eng"
      || strContainsSub (strToLower baseName) "en"
      || strContainsSub (strToLower baseName) "english"
      || baseName == inputFileName then
    ("eng", "English")
  else ("unknown", "Unknown")

/-- One subtitle subdirectory's `.srt` files, converted in directory order. -/
def subsDirFileEntries (o : SubOracle) (inputFileName dirName : String)
    (files : List String) : List SubEntry :=
  (files.filter (fun f => strEndsWith (strToLower f) ".srt")).filterMap
    (fun f =>
      let lp := dirSrtLang inputFileName (baseNameNoSrt f)
      if o.dirFileOk dirName f then
        some { file := "subs_" ++ lp.1 ++ ".vtt", language := lp.1, name := lp.2 }
      else none)

/-- The `possibleSubDirs` scan, in the fixed directory-name order. -/
def subsDirEntries (o : SubOracle) (inputFileName : String)
    (dirs : List (String × List String)) : List SubEntry :=
  (possibleSubDirs.map (fun d =>
    match dirs.lookup d with
    | some files => subsDirFileEntries o inputFileName d files
    | none => [])).flatten

/-- The fixed list of predefined external subtitle files. -/
def predefinedExternalSubs : List SubEntry :=
  [ { file := "subs_eng.vtt", language := "eng", name := "English" },
    { file := "subs_hin.vtt", language := "hin", name := "Hindi" },
    { file := "subs_fre.vtt", language := "fre", name := "French" },
    { file := "subs_spa.vtt", language := "spa", name := "Spanish" },
    { file := "subs_ger.vtt", language := "ger", name := "German" },
    { file := "subs_jpn.vtt", language := "jpn", name := "Japanese" },
    { file := "subs_tam.vtt", language := "tam", name := "Tamil" },
    { file := "subs_tel.vtt", language := "tel", name := "Telugu" },
    { file := "subs_mal.vtt", language := "mal", name := "Malayalam" },
    { file := "subs_guj.vtt", language := "guj", name := "Gujarati" },
    { file := "subs_kan.vtt", language := "kan", name := "Kannada" } ]

/-- The predefined-filename check, copying each file that exists. -/
def predefinedEntries (o : SubOracle) (present : List String) : List SubEntry :=
  predefinedExternalSubs.filterMap (fun sub =>
    if present.contains sub.file && o.copyOk sub.file then some sub else none)

/-- The full `allSubtitles` accumulation of `copySubtitles`: embedded
extractions, then the parent-folder `.srt`, then the subtitle
subdirectories, then the predefined filenames — each phase appending to
the same array. -/
def collectSubtitles (o : SubOracle) (fs : SubFsState) : List SubEntry :=
  embeddedSubEntries o fs.embeddedTags
    ++ parentSrtEntries o fs.parentFiles
    ++ subsDirEntries o fs.inputFileName fs.subsDirs
    ++ predefinedEntries o fs.presentFiles

/-- An oracle in which every external process succeeds. -/
def allOkOracle : SubOracle :=
  { embedOk := fun _ => true, parentOk := true,
    dirFileOk := fun _ _ => true, copyOk := fun _ => true }

/-! ## Master playlist synthesis (`writeMasterPlaylist`, transcoder_win_nvenc.ts 963-1211) -/

structure MediaTrack where
  file : String
  language : String
  name : String
  code : String
  default : Bool
deriving DecidableEq, Repr

/-- The audio language table of `writeMasterPlaylist` (eng is the only
entry flagged default). -/
def masterAudioLangInfo (l : String) : Option LangInfo :=
  if l == "eng" then some { name := "English", code := "en", default := true }
  else if l == "hin" then some { name := "Hindi", code := "hi", default := false }
  else if l == "fre" then some { name := "French", code := "fr", default := false }
  else if l == "spa" then some { name := "Spanish", code := "es", default := false }
  else if l == "ger" then some { name := "German", code := "de", default := false }
  else if l == "jpn" then some { name := "Japanese", code := "ja", default := false }
  else none

/-- The audio track built for one discovered `audio/<language>` directory
that contains a `playlist.m3u8`. -/
def audioTrackFor (language : String) : MediaTrack :=
  let li := (masterAudioLangInfo language).getD (langFallbackInfo language)
  { file := "audio/" ++ language ++ "/playlist.m3u8", language := language,
    name := li.name, code := li.code, default := li.default }

/-- The audio directory scan, in discovery (readdir) order. -/
def scanAudioTracks (audioLangDirs : List String) : List MediaTrack :=
  audioLangDirs.map audioTrackFor

/-- Default re-normalization: when tracks exist and none is default, the
first discovered track becomes default. -/
def normalizeAudioDefaults (ts : List MediaTrack) : List MediaTrack :=
  if 0 < ts.length ∧ ¬ ts.any (fun t => t.default) then
    ts.modifyHead (fun t => { t with default := true })
  else ts

/-- The subtitle language table of `writeMasterPlaylist`. -/
def masterSubLangInfo (l : String) : Option LangInfo :=
  if l == "eng" then some { name := "English", code := "en", default := true }
  else if l == "hin" then some { name := "Hindi", code := "hi", default := false }
  else if l == "fre" then some { name := "French", code := "fr", default := false }
  else if l == "spa" then some { name := "Spanish", code := "es", default := false }
  else if l == "ger" then some { name := "German", code := "de", default := false }
  else if l == "jpn" then some { name := "Japanese", code := "ja", default := false }
  else if l == "nor" then some { name := "Norwegian", code := "no", default := false }
  else none

/-- `file.replace("subs_", "").replace(".vtt", "")`. -/
def subLangOf (file : String) : String :=
  jsRemoveFirst (jsRemoveFirst file "subs_") ".vtt"

/-- The subtitle track built for one discovered `subs_*.vtt` file. -/
def subTrackFor (file : String) : MediaTrack :=
  let language := subLangOf file
  let li := (masterSubLangInfo language).getD (langFallbackInfo language)
  { file := file, language := language, name := li.name, code := li.code,
    default := li.default }

/-- The `subs_*.vtt` output-directory scan, in discovery order. -/
def allSubtitleTracks (outputFiles : List String) : List MediaTrack :=
  (outputFiles.filter (fun f => strEndsWith f ".vtt" && strStartsWith f "subs_")).map
    subTrackFor

/-- The English/Hindi retention filter. -/
def retainedSubtitleTracks (outputFiles : List String) : List MediaTrack :=
  (allSubtitleTracks outputFiles).filter
    (fun s => s.language == "eng" || s.language == "hin")

/-- `find(language === "eng")` followed by `.default = true` on the found
entry: only the first English entry is updated. -/
def setFirstEngDefault : List MediaTrack → List MediaTrack
  | [] => []
  | s :: rest =>
    if s.language == "eng" then { s with default := true } :: rest
    else s :: setFirstEngDefault rest

/-- The `forEach` pass clearing the default flag of every non-English entry. -/
def clearNonEngDefaults (l : List MediaTrack) : List MediaTrack :=
  l.map (fun s => if s.language == "eng" then s else { s with default := false })

/-- Subtitle default forcing: English becomes default when present,
otherwise the first retained entry does. -/
def forceSubtitleDefaults (subs : List MediaTrack) : List MediaTrack :=
  if 0 < subs.length then
    if subs.any (fun s => s.language == "eng") then
      clearNonEngDefaults (setFirstEngDefault subs)
    else subs.modifyHead (fun s => { s with default := true })
  else subs

structure StreamVariantInfo where
  bandwidth : String
  resolution : String
  codec : String
deriving DecidableEq, Repr

/-- The bandwidth/resolution/codec triple looked up by rendition-directory
name, with the generic fallback for unrecognized names. -/
def resolutionInfoFor (dir : String) : StreamVariantInfo :=
  if dir == "1080p" then
    { bandwidth := "8500000", resolution := "1920x1080", codec := "hev1.1.6.L153.B0" }
  else if dir == "720p" then
    { bandwidth := "5500000", resolution := "1280x720", codec := "hev1.1.6.L123.B0" }
  else if dir == "480p" then
    { bandwidth := "2500000", resolution := "854x480", codec := "hev1.1.6.L93.B0" }
  else if dir == "360p" then
    { bandwidth := "1500000", resolution := "640x360", codec := "hev1.1.6.L93.B0" }
  else
    { bandwidth := "2500000", resolution := "?x" ++ jsRemoveFirst dir "p",
      codec := "hev1.1.6.L123.B0" }

/-- One `#EXT-X-MEDIA:TYPE=AUDIO` declaration line. -/
def audioMediaLine (t : MediaTrack) : String :=
  "#EXT-X-MEDIA:TYPE=AUDIO,GROUP-ID=\"audio\",NAME=\"" ++ t.name
    ++ "\",LANGUAGE=\"" ++ t.code ++ "\",URI=\"" ++ t.file ++ "\",DEFAULT="
    ++ (if t.default then "YES" else "NO") ++ "\n"

/-- One `#EXT-X-MEDIA:TYPE=SUBTITLES` declaration line. -/
def subtitleMediaLine (t : MediaTrack) : String :=
  "#EXT-X-MEDIA:TYPE=SUBTITLES,GROUP-ID=\"subs\",NAME=\"" ++ t.name
    ++ "\",LANGUAGE=\"" ++ t.code ++ "\",URI=\"subs_" ++ t.language
    ++ ".m3u8\",DEFAULT=" ++ (if t.default then "YES" else "NO")
    ++ ",AUTOSELECT=YES\n"

/-- One two-line variant stanza for a rendition directory. -/
def variantStanza (audioParam subtitleParam dir : String) : String :=
  let info := resolutionInfoFor dir
  "#EXT-X-STREAM-INF:BANDWIDTH=" ++ info.bandwidth ++ ",RESOLUTION="
    ++ info.resolution ++ ",CODECS=\"" ++ info.codec ++ ",mp4a.40.2\""
    ++ audioParam ++ subtitleParam ++ "\n" ++ dir ++ "/stream.m3u8\n\n"

/-- The `content +=` accumulation of `writeMasterPlaylist` (lines
1126-1197), verbatim: header, conditional audio block, conditional
subtitle block, video header, one stanza per rendition directory. -/
def buildMasterContent (audioTracks subtitleFiles : List MediaTrack)
    (resolutionDirs : List String) : String :=
  let content := "#EXTM3U\n\n"
  let content :=
    if 0 < audioTracks.length then
      (audioTracks.foldl (fun acc t => acc ++ audioMediaLine t)
        (content ++ "# Audio tracks\n")) ++ "\n"
    else content
  let content :=
    if 0 < subtitleFiles.length then
      (subtitleFiles.foldl (fun acc t => acc ++ subtitleMediaLine t)
        (content ++ "# Subtitle tracks\n")) ++ "\n"
    else content
  let audioParam := if 0 < audioTracks.length then ",AUDIO=\"audio\"" else ""
  let subtitleParam :=
    if 0 < subtitleFiles.length then ",SUBTITLES=\"subs\"" else ""
  let content := content ++ "# Video streams\n"
  resolutionDirs.foldl (fun acc dir => acc ++ variantStanza audioParam subtitleParam dir)
    content

/-- The rendition-directory scan: subdirectories whose name ends in `p`. -/
def resolutionDirsOf (outputSubdirs : List String) : List String :=
  outputSubdirs.filter (fun d => strEndsWith d "p")

/-- `writeMasterPlaylist` end to end, as a function of the discovered
audio language directories, the output-directory file list, and the
output-directory subdirectory list, each in discovery order. -/
def writeMasterPlaylistContent (audioLangDirs outputFiles outputSubdirs : List String) :
    String :=
  buildMasterContent
    (normalizeAudioDefaults (scanAudioTracks audioLangDirs))
    (forceSubtitleDefaults (retainedSubtitleTracks outputFiles))
    (resolutionDirsOf outputSubdirs)

/-! ## Declarative section forms used to state the manifest-shape theorem -/

/-- Concatenation of a list of strings, in order. -/
def strConcat (l : List String) : String :=
  l.foldr (fun s acc => s ++ acc) ""

/-- The audio declaration block as a plain concatenation in discovery order. -/
def audioSection (ts : List MediaTrack) : String :=
  if ts.isEmpty then "" else
    "# Audio tracks\n" ++ strConcat (ts.map audioMediaLine) ++ "\n"

/-- The subtitle declaration block as a plain concatenation in discovery order. -/
def subtitleSection (ts : List MediaTrack) : String :=
  if ts.isEmpty then "" else
    "# Subtitle tracks\n" ++ strConcat (ts.map subtitleMediaLine) ++ "\n"

/-- The variant stanzas as a plain concatenation in discovery order. -/
def videoSection (audioParam subtitleParam : String) (dirs : List String) : String :=
  strConcat (dirs.map (variantStanza audioParam subtitleParam))

/-! ## Auxiliary definitions for the proofs -/

/-- Decimal digit characters of a number, most significant first; used to
characterize `Nat.repr`. -/
def natDigitsChars (n : Nat) : List Char :=
  if _h : n < 10 then [Nat.digitChar n]
  else natDigitsChars (n / 10) ++ [Nat.digitChar (n % 10)]
decreasing_by exact Nat.div_lt_self (by omega) (by omega)

/-- A catalog movie row left in the PENDING state. -/
def pendingMovie : MovieRow :=
  { id := "m1", title := "Example", filePath := "/media/movies/test/example.mkv",
    transcodeStatus := .PENDING, playPath := none }

/-- A catalog movie row in the QUEUED state. -/
def queuedMovie : MovieRow :=
  { id := "m2", title := "Other", filePath := "/media/movies/test/other.mkv",
    transcodeStatus := .QUEUED, playPath := none }

/-- A catalog series row in the QUEUED state. -/
def queuedSeries : SeriesRow :=
  { id := "s1", title := "Show", transcodeStatus := .QUEUED, episodes := [] }

/-! ## Helper lemmas -/

theorem encodeRendition_ok {o : EncodeOutcome} (h : o ≠ .bothFail) :
    encodeRendition o = .ok () := by
  cases o <;> simp_all [encodeRendition]

theorem transcodeLoop_append_ok (outcome : String → EncodeOutcome)
    (pre rest : List RenditionSpec)
    (hpre : ∀ x ∈ pre, outcome x.name ≠ .bothFail) :
    transcodeLoop outcome (pre ++ rest) = transcodeLoop outcome rest := by
  induction pre with
  | nil => rfl
  | cons x xs ih =>
    have hx := encodeRendition_ok (hpre x (by simp))
    simp only [List.cons_append, transcodeLoop, hx]
    exact ih (fun y hy => hpre y (by simp [hy]))

theorem attemptedRenditions_append_ok (outcome : String → EncodeOutcome)
    (pre rest : List RenditionSpec)
    (hpre : ∀ x ∈ pre, outcome x.name ≠ .bothFail) :
    attemptedRenditions outcome (pre ++ rest) =
      pre ++ attemptedRenditions outcome rest := by
  induction pre with
  | nil => rfl
  | cons x xs ih =>
    have hx := encodeRendition_ok (hpre x (by simp))
    simp only [List.cons_append, attemptedRenditions, hx]
    show x :: attemptedRenditions outcome (xs ++ rest) =
      x :: (xs ++ attemptedRenditions outcome rest)
    rw [ih (fun y hy => hpre y (by simp [hy]))]

theorem succeededRenditions_append_ok (outcome : String → EncodeOutcome)
    (pre rest : List RenditionSpec)
    (hpre : ∀ x ∈ pre, outcome x.name ≠ .bothFail) :
    succeededRenditions outcome (pre ++ rest) =
      pre ++ succeededRenditions outcome rest := by
  induction pre with
  | nil => rfl
  | cons x xs ih =>
    have hx := encodeRendition_ok (hpre x (by simp))
    simp only [List.cons_append, succeededRenditions, hx]
    show x :: succeededRenditions outcome (xs ++ rest) =
      x :: (xs ++ succeededRenditions outcome rest)
    rw [ih (fun y hy => hpre y (by simp [hy]))]

theorem selectResolutions_eq (w h : Nat) :
    selectResolutions w h =
      if 2160 ≤ h ∨ 3840 ≤ w then [res1080p]
      else if 1080 ≤ h ∨ 1920 ≤ w then [res1080p]
      else if 720 ≤ h ∨ 1280 ≤ w then [res720p]
      else [res480p] := by
  unfold selectResolutions
  split_ifs with h1 h2 h3
  · decide
  · decide
  · decide
  · have hle : h < 720 := by omega
    have c1 : (decide (res1080p.height ≤ h)) = false :=
      decide_eq_false (by simp only [res1080p]; omega)
    have c2 : (decide (res720p.height ≤ h)) = false :=
      decide_eq_false (by simp only [res720p]; omega)
    rcases Nat.lt_or_ge h 480 with h4 | h4
    · have c3 : (decide (res480p.height ≤ h)) = false :=
        decide_eq_false (by simp only [res480p]; omega)
      simp [allResolutions, List.find?, c1, c2, c3]
    · have c3 : (decide (res480p.height ≤ h)) = true :=
        decide_eq_true (by simp only [res480p]; omega)
      simp [allResolutions, List.find?, c1, c2, c3]

/-! ## Claim C1 -/

/-- C1, counterexample: with a planned list of two renditions in which the
1080p rendition fails both the hardware and the software attempt, the
sibling 720p rendition is never attempted and no master playlist is
written in that run — the double failure is fatal to the whole loop, not
only to the one rendition, refuting the claim. -/
theorem transcode_double_failure_aborts_cex :
    2 ≤ ([res1080p, res720p] : List RenditionSpec).length ∧
    doubleFailOn1080p res1080p.name = .bothFail ∧
    transcodeLoop doubleFailOn1080p [res1080p, res720p] = .error () ∧
    attemptedRenditions doubleFailOn1080p [res1080p, res720p] = [res1080p] ∧
    res720p ∉ attemptedRenditions doubleFailOn1080p [res1080p, res720p] ∧
    masterWrittenAfterEntryRun doubleFailOn1080p [res1080p, res720p] = false := by
  refine ⟨by decide, by decide, rfl, rfl, by decide, rfl⟩

/-- C1, amended: when both encode attempts fail for one rendition, the
rethrown error aborts `transcodeResolutions`: every earlier sibling was
attempted and succeeded, the failing rendition is the last one attempted,
the later siblings are not attempted, and the run never reaches
`writeMasterPlaylist`. -/
theorem transcode_double_failure_aborts (outcome : String → EncodeOutcome)
    (pre post : List RenditionSpec) (r : RenditionSpec)
    (hpre : ∀ x ∈ pre, outcome x.name ≠ .bothFail)
    (hr : outcome r.name = .bothFail) :
    transcodeLoop outcome (pre ++ r :: post) = .error () ∧
    attemptedRenditions outcome (pre ++ r :: post) = pre ++ [r] ∧
    succeededRenditions outcome (pre ++ r :: post) = pre ∧
    masterWrittenAfterEntryRun outcome (pre ++ r :: post) = false := by
  have hloop : transcodeLoop outcome (pre ++ r :: post) = .error () := by
    rw [transcodeLoop_append_ok outcome pre _ hpre]
    simp [transcodeLoop, hr, encodeRendition]
  refine ⟨hloop, ?_, ?_, ?_⟩
  · rw [attemptedRenditions_append_ok outcome pre _ hpre]
    simp [attemptedRenditions, hr, encodeRendition]
  · rw [succeededRenditions_append_ok outcome pre _ hpre]
    simp [succeededRenditions, hr, encodeRendition]
  · simp [masterWrittenAfterEntryRun, hloop]

/-- C1, witness for the amended theorem at a concrete outcome and list. -/
theorem transcode_double_failure_aborts_witness :
    transcodeLoop doubleFailOn1080p ([res720p] ++ res1080p :: []) = .error () ∧
    attemptedRenditions doubleFailOn1080p ([res720p] ++ res1080p :: []) =
      [res720p] ++ [res1080p] ∧
    succeededRenditions doubleFailOn1080p ([res720p] ++ res1080p :: []) = [res720p] ∧
    masterWrittenAfterEntryRun doubleFailOn1080p ([res720p] ++ res1080p :: []) = false :=
  transcode_double_failure_aborts doubleFailOn1080p [res720p] [] res1080p
    (by decide) (by decide)

/-! ## Claim C2 -/

/-- C2, counterexample: a 640x360 source selects the lowest predefined
rung 480p, whose target height 480 exceeds the source height 360 — the
ladder upscales, refuting the strict non-upscaling part of the claim
(the claim itself requires the 640x360 source to yield this rung). -/
theorem plan_fallback_upscales_cex :
    selectResolutions 640 360 = [res480p] ∧ res480p.height = 480 ∧
    360 < res480p.height := by
  refine ⟨by decide, rfl, by decide⟩

/-- C2, amended: for every source with positive dimensions the ladder is a
non-empty singleton and follows the claimed threshold table (4K and 1080p
classes yield exactly 1080p, the 720p class yields exactly 720p, lower
sources yield the single 480p rung, which is also the
lowest-rung fallback); the ladder never upscales when the source height
reaches the selected band and the selection is not forced by a wider
width, but it does upscale when the rung is chosen by the width threshold
alone or by the lowest-rung fallback (as at 640x360). -/
theorem plan_ladder_characterization (w h : Nat) (hw : 0 < w) (hh : 0 < h) :
    (selectResolutions w h).length = 1 ∧
    (2160 ≤ h ∨ 3840 ≤ w → selectResolutions w h = [res1080p]) ∧
    (h < 2160 → w < 3840 → (1080 ≤ h ∨ 1920 ≤ w) →
      selectResolutions w h = [res1080p]) ∧
    (h < 1080 → w < 1920 → (720 ≤ h ∨ 1280 ≤ w) →
      selectResolutions w h = [res720p]) ∧
    (h < 720 → w < 1280 → selectResolutions w h = [res480p]) ∧
    ((1080 ≤ h ∨ (720 ≤ h ∧ w < 1920) ∨ (480 ≤ h ∧ w < 1280)) →
      ∀ r ∈ selectResolutions w h, r.height ≤ h) := by
  rw [selectResolutions_eq w h]
  refine ⟨?_, ?_, ?_, ?_, ?_, ?_⟩
  · split_ifs <;> rfl
  · intro hc; rw [if_pos hc]
  · intro hb1 hb2 hc
    rw [if_neg (by omega), if_pos hc]
  · intro hb1 hb2 hc
    rw [if_neg (by omega), if_neg (by omega), if_pos hc]
  · intro hb1 hb2
    rw [if_neg (by omega), if_neg (by omega), if_neg (by omega)]
  · intro hc r hr
    split_ifs at hr with h1 h2 h3 <;> simp at hr <;> subst hr <;>
      simp only [res1080p, res720p, res480p] <;> omega

/-- C2, witness for the amended theorem at the 1920x1080 source. -/
theorem plan_ladder_characterization_witness :
    (selectResolutions 1920 1080).length = 1 :=
  (plan_ladder_characterization 1920 1080 (by decide) (by decide)).1

/-! ## Claim C4 -/

/-- C4: for a runnable entry — movie (index.ts 57-83) or episode
(index.ts 152-184) — whose file resolves and whose expected
master-manifest path already exists, the run records zero transcoder
invocations, still persists COMPLETED as the entry's last status
together with its playback path, and a COMPLETED entry is not matched by
the runnable-entry query (so an unchanged input does no encoding work on
a second pipeline run). -/
theorem idempotent_skip_no_encode (fileOk manifestExists transcodeOk : Bool)
    (h1 : fileOk = true) (h2 : manifestExists = true) :
    (transcoderInvocationCount
        (processMovieEvents fileOk manifestExists transcodeOk) = 0 ∧
      finalMovieStatus (processMovieEvents fileOk manifestExists transcodeOk) =
        some .COMPLETED ∧
      PipelineEvent.setMoviePlayPath ∈
        processMovieEvents fileOk manifestExists transcodeOk) ∧
    (transcoderInvocationCount
        (processEpisodeEvents fileOk manifestExists transcodeOk) = 0 ∧
      finalEpisodeStatus
          (processEpisodeEvents fileOk manifestExists transcodeOk) =
        some .COMPLETED ∧
      PipelineEvent.setEpisodePlayPath ∈
        processEpisodeEvents fileOk manifestExists transcodeOk) ∧
    queuedTranscodeFilter .COMPLETED = false := by
  subst h1; subst h2
  cases transcodeOk <;> decide

/-- C4, witness at concrete flags. -/
theorem idempotent_skip_no_encode_witness :
    (transcoderInvocationCount (processMovieEvents true true true) = 0 ∧
      finalMovieStatus (processMovieEvents true true true) = some .COMPLETED ∧
      PipelineEvent.setMoviePlayPath ∈ processMovieEvents true true true) ∧
    (transcoderInvocationCount (processEpisodeEvents true true true) = 0 ∧
      finalEpisodeStatus (processEpisodeEvents true true true) =
        some .COMPLETED ∧
      PipelineEvent.setEpisodePlayPath ∈ processEpisodeEvents true true true) ∧
    queuedTranscodeFilter .COMPLETED = false :=
  idempotent_skip_no_encode true true true rfl rfl

/-! ## Claim C6 -/

/-- C6, counterexample: a catalog holding exactly one movie whose status
is PENDING produces an empty runnable-entry query result, refuting the
claim that entries with status PENDING are returned as runnable. -/
theorem runnable_query_excludes_pending_cex :
    pendingMovie.transcodeStatus = .PENDING ∧
    pendingMovie ∈ [pendingMovie] ∧
    getQueuedTranscodeMovies [pendingMovie] = [] := by
  refine ⟨rfl, by decide, rfl⟩

/-- C6, amended: the runnable-entry queries return exactly the catalog
entries whose status lies in the set QUEUED, IN_PROGRESS: PENDING
entries (and COMPLETED and FAILED ones) are excluded. -/
theorem runnable_query_filter (movies : List MovieRow) (series : List SeriesRow)
    (m : MovieRow) (s : SeriesRow) (hm : m ∈ movies) (hs : s ∈ series) :
    (m ∈ getQueuedTranscodeMovies movies ↔
      m.transcodeStatus = .QUEUED ∨ m.transcodeStatus = .IN_PROGRESS) ∧
    (s ∈ getQueuedTranscodeTvSeries series ↔
      s.transcodeStatus = .QUEUED ∨ s.transcodeStatus = .IN_PROGRESS) := by
  constructor
  · rw [getQueuedTranscodeMovies, List.mem_filter]
    simp [hm, queuedTranscodeFilter]
  · rw [getQueuedTranscodeTvSeries, List.mem_filter]
    simp [hs, queuedTranscodeFilter]

/-- C6, witness: a QUEUED movie and a QUEUED series in singleton catalogs. -/
theorem runnable_query_filter_witness :
    (queuedMovie ∈ getQueuedTranscodeMovies [queuedMovie] ↔
      queuedMovie.transcodeStatus = .QUEUED ∨
        queuedMovie.transcodeStatus = .IN_PROGRESS) ∧
    (queuedSeries ∈ getQueuedTranscodeTvSeries [queuedSeries] ↔
      queuedSeries.transcodeStatus = .QUEUED ∨
        queuedSeries.transcodeStatus = .IN_PROGRESS) :=
  runnable_query_filter [queuedMovie] [queuedSeries] queuedMovie queuedSeries
    (by decide) (by decide)

/-! ## Claim C5 -/

/-- C5: the series trace opens by persisting IN_PROGRESS and closes by
persisting the terminal status; the terminal status is COMPLETED exactly
when every child episode ended COMPLETED (equivalently, none ended
FAILED), and is FAILED otherwise; in particular three episodes of which
the second failed terminate the series as FAILED. -/
theorem series_status_aggregation (eps : List EpisodeOutcome) :
    (processSeriesEvents eps).head? =
      some (.setSeriesStatus .IN_PROGRESS) ∧
    (processSeriesEvents eps).getLast? =
      some (.setSeriesStatus (seriesTerminalStatus eps)) ∧
    (seriesTerminalStatus eps = .COMPLETED ↔
      ∀ e ∈ eps, episodeFinalStatus e = .COMPLETED ∧
        episodeFinalStatus e ≠ .FAILED) ∧
    (seriesTerminalStatus eps = .COMPLETED ∨
      seriesTerminalStatus eps = .FAILED) ∧
    seriesTerminalStatus [.transcoded, .failed, .transcoded] = .FAILED := by
  have hflag : ∀ e : EpisodeOutcome,
      episodeFinalStatus e = .COMPLETED ↔ episodeFailureFlag e = false := by
    intro e; cases e <;> simp [episodeFinalStatus, episodeFailureFlag]
  refine ⟨?_, ?_, ?_, ?_, by decide⟩
  · simp [processSeriesEvents]
  · rw [processSeriesEvents, List.getLast?_concat]
  · rw [seriesTerminalStatus]
    split_ifs with hc
    · simp only [true_iff, eq_self_iff_true]
      rw [Bool.and_eq_true, checkAllEpisodesCompleted, beq_iff_eq,
        List.countP_eq_zero] at hc
      intro e he
      have h1 := hc.1 (episodeFinalStatus e) (List.mem_map_of_mem _ he)
      simp only [Bool.not_eq_true', beq_eq_false_iff_ne, ne_eq,
        Decidable.not_not] at h1
      refine ⟨h1, by rw [h1]; intro hcon; cases hcon⟩
    · constructor
      · intro hcon; cases hcon
      · intro hall
        exfalso
        apply hc
        rw [Bool.and_eq_true, checkAllEpisodesCompleted, beq_iff_eq,
          List.countP_eq_zero]
        constructor
        · intro st hst
          rcases List.mem_map.mp hst with ⟨e, he, rfl⟩
          simp [(hall e he).1]
        · rw [Bool.not_eq_true', List.any_eq_false]
          intro e he
          simp [(hflag e).mp (hall e he).1]
  · rw [seriesTerminalStatus]; split_ifs <;> simp

/-! ## Claim C8 -/

/-- Concrete filesystem state for the subtitle counterexample: one
embedded Hindi subtitle stream, one `.srt` sibling in the parent folder,
no subtitle subdirectory, no predefined files. -/
def subFsWithEmbedded : SubFsState :=
  { embeddedTags := [some "hin"], parentFiles := ["Movie.srt"],
    subsDirs := [], presentFiles := [], inputFileName := "movie" }

/-- C8, counterexample: although the container has an embedded subtitle
stream, `copySubtitles` still consults the parent-folder `.srt` candidate
and appends the external English entry after the embedded Hindi one,
refuting the claim that external candidates are used only when no
embedded subtitle stream exists. -/
theorem external_subs_used_despite_embedded_cex :
    subFsWithEmbedded.embeddedTags ≠ [] ∧
    collectSubtitles allOkOracle subFsWithEmbedded =
      [{ file := "subs_hin.vtt", language := "hin", name := "Hindi" },
        { file := "subs_eng.vtt", language := "eng", name := "English" }] := by
  constructor
  · decide
  · decide

/-- C8, amended: the external candidates (parent-folder `.srt`, the
conventional subtitle subdirectories, the predefined filenames, in that
priority order) are consulted unconditionally: the collected list is the
embedded extractions followed by exactly what would have been collected
had the container carried no embedded subtitle stream; in particular a
parent-folder `.srt` whose conversion succeeds always contributes its
English entry, embedded streams or not. -/
theorem external_subs_always_consulted (o : SubOracle) (fs : SubFsState) :
    (collectSubtitles o fs =
      embeddedSubEntries o fs.embeddedTags ++
        collectSubtitles o { fs with embeddedTags := [] }) ∧
    ((fs.parentFiles.filter
        (fun f => strEndsWith (strToLower f) ".srt")) ≠ [] →
      o.parentOk = true →
      ({ file := "subs_eng.vtt", language := "eng", name := "English" } : SubEntry)
        ∈ collectSubtitles o fs) := by
  constructor
  · simp [collectSubtitles, embeddedSubEntries, embeddedSubEntriesAux]
  · intro hsrt hok
    have hlen : 0 < (fs.parentFiles.filter
        (fun f => strEndsWith (strToLower f) ".srt")).length :=
      List.length_pos.mpr hsrt
    have hpar : parentSrtEntries o fs.parentFiles =
        [{ file := "subs_eng.vtt", language := "eng", name := "English" }] := by
      rw [parentSrtEntries, if_pos hlen, if_pos hok]
    rw [collectSubtitles, hpar]
    simp

/-- C8, witness for the amended theorem at the concrete state. -/
theorem external_subs_always_consulted_witness :
    ({ file := "subs_eng.vtt", language := "eng", name := "English" } : SubEntry)
      ∈ collectSubtitles allOkOracle subFsWithEmbedded :=
  (external_subs_always_consulted allOkOracle subFsWithEmbedded).2
    (by decide) rfl

/-! ## Helper lemmas for the default-track invariants -/

theorem audioTrackFor_default (l : String) :
    (audioTrackFor l).default = (l == "eng") := by
  simp only [audioTrackFor, masterAudioLangInfo, langFallbackInfo]
  split_ifs <;> simp_all

theorem audioTrackFor_language (l : String) :
    (audioTrackFor l).language = l := rfl

theorem scanAudio_countP (dirs : List String) :
    (scanAudioTracks dirs).countP (fun t => t.default) =
      dirs.countP (fun l => l == "eng") := by
  rw [scanAudioTracks, List.countP_map]
  exact List.countP_congr (fun l _ => by simp [Function.comp, audioTrackFor_default])

theorem countP_beq_of_nodup (l : List String) (a : String) (hnd : l.Nodup) :
    l.countP (fun x => x == a) = if a ∈ l then 1 else 0 := by
  induction l with
  | nil => simp
  | cons x xs ih =>
    rcases List.nodup_cons.mp hnd with ⟨hx, hxs⟩
    rw [List.countP_cons, ih hxs]
    by_cases hxa : x = a
    · subst hxa
      simp [hx]
    · by_cases hmem : a ∈ xs <;>
        simp [hmem, hxa, beq_iff_eq, Ne.symm hxa]

theorem subTrackFor_language (f : String) :
    (subTrackFor f).language = subLangOf f := rfl

theorem subTrackFor_default (f : String) :
    (subTrackFor f).default = (subLangOf f == "eng") := by
  simp only [subTrackFor, masterSubLangInfo, langFallbackInfo]
  split_ifs <;> simp_all

theorem retained_entry_prop (files : List String) :
    ∀ t ∈ retainedSubtitleTracks files,
      (t.language = "eng" ∨ t.language = "hin") ∧
        t.default = (t.language == "eng") := by
  intro t ht
  rw [retainedSubtitleTracks] at ht
  rcases List.mem_filter.mp ht with ⟨hmem, hcond⟩
  rw [allSubtitleTracks] at hmem
  rcases List.mem_map.mp hmem with ⟨f, hf, rfl⟩
  refine ⟨?_, ?_⟩
  · revert hcond
    simp [beq_iff_eq]
  · rw [subTrackFor_default, subTrackFor_language]

theorem clearNonEng_countP (l : List MediaTrack) :
    (clearNonEngDefaults l).countP (fun t => t.default) =
      l.countP (fun t => t.language == "eng" && t.default) := by
  rw [clearNonEngDefaults, List.countP_map]
  apply List.countP_congr
  intro t _
  by_cases h : t.language == "eng" <;> simp [Function.comp, h]

theorem setFirstEng_count (l : List MediaTrack)
    (He : ∃ t ∈ l, t.language = "eng")
    (H2 : (l.map (fun t => t.language)).Nodup) :
    (setFirstEngDefault l).countP (fun t => t.language == "eng" && t.default) = 1 := by
  induction l with
  | nil => simp at He
  | cons s rest ih =>
    rw [List.map_cons, List.nodup_cons] at H2
    by_cases hs : s.language = "eng"
    · rw [setFirstEngDefault, if_pos (by simp [hs]), List.countP_cons]
      have hrest : rest.countP (fun t => t.language == "eng" && t.default) = 0 := by
        rw [List.countP_eq_zero]
        intro t ht
        have : t.language ≠ "eng" := by
          intro hcon
          exact H2.1 (by rw [hs, ← hcon]; exact List.mem_map_of_mem _ ht)
        simp [this]
      simp [hrest, hs]
    · rw [setFirstEngDefault, if_neg (by simp [hs]), List.countP_cons]
      have hersts : ∃ t ∈ rest, t.language = "eng" := by
        rcases He with ⟨t, ht, hte⟩
        rcases List.mem_cons.mp ht with rfl | htr
        · exact absurd hte hs
        · exact ⟨t, htr, hte⟩
      simp [ih hersts H2.2, hs]

theorem clearNonEng_default_lang (l : List MediaTrack) :
    ∀ t ∈ clearNonEngDefaults l, t.default = true → t.language = "eng" := by
  intro t ht hd
  rw [clearNonEngDefaults] at ht
  rcases List.mem_map.mp ht with ⟨x, _, rfl⟩
  by_cases hx : x.language == "eng"
  · rw [if_pos hx] at hd ⊢
    exact beq_iff_eq.mp hx
  · rw [if_neg hx] at hd
    cases hd

theorem setFirstEng_lang_map (l : List MediaTrack) :
    (setFirstEngDefault l).map (fun t => t.language) =
      l.map (fun t => t.language) := by
  induction l with
  | nil => rfl
  | cons s rest ih =>
    rw [setFirstEngDefault]
    split_ifs <;> simp [ih]

theorem force_subtitle_defaults_spec (l : List MediaTrack) (hne : l ≠ [])
    (H1 : ∀ t ∈ l, t.default = (t.language == "eng"))
    (H2 : (l.map (fun t => t.language)).Nodup) :
    (forceSubtitleDefaults l).countP (fun t => t.default) = 1 ∧
    ((∃ t ∈ l, t.language = "eng") →
      ∀ t ∈ forceSubtitleDefaults l, t.default = true → t.language = "eng") ∧
    ((¬ ∃ t ∈ l, t.language = "eng") →
      (forceSubtitleDefaults l).head?.map (fun t => t.default) = some true) := by
  rw [forceSubtitleDefaults, if_pos (List.length_pos.mpr hne)]
  by_cases hany : l.any (fun s => s.language == "eng") = true
  · have hex : ∃ t ∈ l, t.language = "eng" := by
      simpa [List.any_eq_true, beq_iff_eq] using hany
    rw [if_pos hany]
    refine ⟨?_, fun _ => clearNonEng_default_lang _, fun hno => absurd hex hno⟩
    rw [clearNonEng_countP]
    exact setFirstEng_count l hex H2
  · have hnoeng : ∀ t ∈ l, t.language ≠ "eng" := by
      intro t ht
      have := (List.any_eq_false (p := fun s => s.language == "eng")).mp
        (Bool.not_eq_true _ ▸ hany) t ht
      simpa [beq_iff_eq] using this
    rw [if_neg hany]
    rcases l with _ | ⟨x, xs⟩
    · exact absurd rfl hne
    · have hxs0 : xs.countP (fun t => t.default) = 0 := by
        rw [List.countP_eq_zero]
        intro t ht
        rw [H1 t (by simp [ht])]
        simp [hnoeng t (by simp [ht])]
      refine ⟨?_, ?_, ?_⟩
      · simp [List.modifyHead, List.countP_cons, hxs0]
      · intro hex
        rcases hex with ⟨t, ht, hte⟩
        exact absurd hte (hnoeng t ht)
      · intro _
        simp [List.modifyHead]

/-! ## Claim C3 -/

/-- C3: in the synthesized master playlist inputs, every non-empty
discovered audio-track list carries exactly one default flag after
re-normalization — the track flagged default by the language table (the
English one) when present, else the first discovered track — and every
non-empty retained (English/Hindi) subtitle list carries exactly one
default flag after forcing, English whenever present, else the first
retained entry.  The no-duplicates hypotheses reflect that both scans
enumerate distinct directory entries. -/
theorem master_unique_default_tracks (audioLangDirs outputFiles : List String) :
    (audioLangDirs ≠ [] → audioLangDirs.Nodup →
      (normalizeAudioDefaults (scanAudioTracks audioLangDirs)).countP
          (fun t => t.default) = 1 ∧
      ("eng" ∈ audioLangDirs →
        ∀ t ∈ normalizeAudioDefaults (scanAudioTracks audioLangDirs),
          t.default = true → t.language = "eng") ∧
      ("eng" ∉ audioLangDirs →
        (normalizeAudioDefaults (scanAudioTracks audioLangDirs)).head?.map
          (fun t => t.default) = some true)) ∧
    (retainedSubtitleTracks outputFiles ≠ [] →
      ((retainedSubtitleTracks outputFiles).map (fun t => t.language)).Nodup →
      (forceSubtitleDefaults (retainedSubtitleTracks outputFiles)).countP
          (fun t => t.default) = 1 ∧
      ((∃ t ∈ retainedSubtitleTracks outputFiles, t.language = "eng") →
        ∀ t ∈ forceSubtitleDefaults (retainedSubtitleTracks outputFiles),
          t.default = true → t.language = "eng") ∧
      ((¬ ∃ t ∈ retainedSubtitleTracks outputFiles, t.language = "eng") →
        (forceSubtitleDefaults (retainedSubtitleTracks outputFiles)).head?.map
          (fun t => t.default) = some true)) := by
  constructor
  · intro hne hnd
    have hcount := scanAudio_countP audioLangDirs
    rw [countP_beq_of_nodup audioLangDirs "eng" hnd] at hcount
    by_cases hmem : "eng" ∈ audioLangDirs
    · rw [if_pos hmem] at hcount
      have hid : normalizeAudioDefaults (scanAudioTracks audioLangDirs) =
          scanAudioTracks audioLangDirs := by
        rw [normalizeAudioDefaults, if_neg]
        intro hc
        have : 0 < (scanAudioTracks audioLangDirs).countP (fun t => t.default) := by
          omega
        rcases List.countP_pos_iff.mp this with ⟨t, ht, htd⟩
        exact absurd (List.any_eq_true.mpr ⟨t, ht, htd⟩) hc.2
      rw [hid]
      refine ⟨hcount, fun _ t ht htd => ?_, fun hno => absurd hmem hno⟩
      rcases List.mem_map.mp ht with ⟨l, hl, rfl⟩
      rw [audioTrackFor_language]
      have := audioTrackFor_default l
      rw [htd] at this
      exact (beq_iff_eq.mp this.symm)
    · rw [if_neg hmem] at hcount
      have hnodef : (scanAudioTracks audioLangDirs).any (fun t => t.default) = false := by
        rw [List.any_eq_false]
        intro t ht
        have := List.countP_eq_zero.mp hcount t ht
        simpa using this
      have hmod : normalizeAudioDefaults (scanAudioTracks audioLangDirs) =
          (scanAudioTracks audioLangDirs).modifyHead
            (fun t => { t with default := true }) := by
        rw [normalizeAudioDefaults, if_pos]
        refine ⟨?_, by simp [hnodef]⟩
        rcases audioLangDirs with _ | ⟨d, ds⟩
        · exact absurd rfl hne
        · simp [scanAudioTracks]
      rw [hmod]
      rcases audioLangDirs with _ | ⟨d, ds⟩
      · exact absurd rfl hne
      · have hds0 : (scanAudioTracks ds).countP (fun t => t.default) = 0 := by
          rw [scanAudioTracks] at hcount ⊢
          rw [List.map_cons, List.countP_cons] at hcount
          omega
        refine ⟨?_, fun hm => absurd hm hmem, fun _ => ?_⟩
        · simp [scanAudioTracks, List.modifyHead, List.countP_cons]
          intro a ha
          have := List.countP_eq_zero.mp hds0 (audioTrackFor a)
            (by rw [scanAudioTracks]; exact List.mem_map_of_mem _ ha)
          simpa using this
        · simp [scanAudioTracks, List.modifyHead]
  · intro hne hnd
    exact force_subtitle_defaults_spec _ hne
      (fun t ht => (retained_entry_prop outputFiles t ht).2) hnd

/-- C3, witness: audio directories eng and hin, subtitle files for
English and Hindi. -/
theorem master_unique_default_tracks_witness :
    (normalizeAudioDefaults (scanAudioTracks ["eng", "hin"])).countP
        (fun t => t.default) = 1 ∧
    (forceSubtitleDefaults
        (retainedSubtitleTracks ["subs_eng.vtt", "subs_hin.vtt"])).countP
        (fun t => t.default) = 1 :=
  ⟨((master_unique_default_tracks ["eng", "hin"]
      ["subs_eng.vtt", "subs_hin.vtt"]).1 (by decide) (by decide)).1,
    ((master_unique_default_tracks ["eng", "hin"]
      ["subs_eng.vtt", "subs_hin.vtt"]).2 (by decide) (by decide)).1⟩

/-! ## Claim C9 -/

theorem strConcat_cons (x : String) (l : List String) :
    strConcat (x :: l) = x ++ strConcat l := rfl

theorem foldl_strAppend {α : Type} (f : α → String) (l : List α) (init : String) :
    l.foldl (fun acc x => acc ++ f x) init = init ++ strConcat (l.map f) := by
  induction l generalizing init with
  | nil => simp [strConcat]
  | cons x xs ih =>
    simp only [List.foldl_cons, List.map_cons]
    rw [ih]
    simp [strConcat, String.append_assoc]

/-- C9: the master manifest content is a deterministic function of the
discovered renditions and tracks in their discovery order, and it
decomposes as the format marker, then the audio declarations in
discovery order, then the subtitle declarations, then one variant stanza
per rendition (each stanza carrying the bandwidth/resolution/codec
triple looked up by `resolutionInfoFor`, including its generic
fallback); equal discovered inputs give byte-identical output. -/
theorem master_content_deterministic_shape (a s : List MediaTrack)
    (dirs : List String) :
    buildMasterContent a s dirs =
      "#EXTM3U\n\n" ++ audioSection a ++ subtitleSection s
        ++ "# Video streams\n"
        ++ videoSection (if 0 < a.length then ",AUDIO=\"audio\"" else "")
            (if 0 < s.length then ",SUBTITLES=\"subs\"" else "") dirs ∧
    (∀ a2 s2 dirs2, a = a2 → s = s2 → dirs = dirs2 →
      buildMasterContent a s dirs = buildMasterContent a2 s2 dirs2) := by
  refine ⟨?_, by intro a2 s2 d2 h1 h2 h3; rw [h1, h2, h3]⟩
  rw [buildMasterContent, audioSection, subtitleSection, videoSection]
  rcases a with _ | ⟨a0, as⟩ <;> rcases s with _ | ⟨s0, ss⟩ <;>
    simp [foldl_strAppend, strConcat_cons, String.append_assoc,
      -String.reduceAppend]

/-! ## Digit and split lemmas for the timestamp round-trip -/

theorem digitChar_isDigit {k : Nat} (hk : k < 10) :
    (Nat.digitChar k).isDigit = true := by
  interval_cases k <;> decide

theorem digitChar_sub48 {k : Nat} (hk : k < 10) :
    (Nat.digitChar k).toNat - 48 = k := by
  interval_cases k <;> decide

theorem natDigitsChars_ne_nil (n : Nat) : natDigitsChars n ≠ [] := by
  rw [natDigitsChars]
  split_ifs <;> simp

theorem natDigitsChars_all_digit (n : Nat) :
    ∀ c ∈ natDigitsChars n, c.isDigit = true := by
  induction n using Nat.strong_induction_on with
  | _ n ih =>
    rw [natDigitsChars]
    split_ifs with h
    · intro c hc
      rw [List.mem_singleton] at hc
      subst hc
      exact digitChar_isDigit h
    · intro c hc
      rcases List.mem_append.mp hc with h1 | h1
      · exact ih (n / 10) (Nat.div_lt_self (by omega) (by omega)) c h1
      · rw [List.mem_singleton] at h1
        subst h1
        exact digitChar_isDigit (Nat.mod_lt _ (by omega))

theorem digitsVal_append_singleton (xs : List Char) (c : Char) :
    digitsVal (xs ++ [c]) = digitsVal xs * 10 + (c.toNat - 48) := by
  simp [digitsVal, List.foldl_append]

theorem digitsVal_natDigitsChars (n : Nat) :
    digitsVal (natDigitsChars n) = n := by
  induction n using Nat.strong_induction_on with
  | _ n ih =>
    rw [natDigitsChars]
    split_ifs with h
    · simp [digitsVal, digitChar_sub48 h]
    · rw [digitsVal_append_singleton,
        ih (n / 10) (Nat.div_lt_self (by omega) (by omega)),
        digitChar_sub48 (Nat.mod_lt _ (by omega))]
      omega

theorem toDigitsCore_succ (fuel n : Nat) (ds : List Char) :
    Nat.toDigitsCore 10 (fuel + 1) n ds =
      if n / 10 = 0 then Nat.digitChar (n % 10) :: ds
      else Nat.toDigitsCore 10 fuel (n / 10) (Nat.digitChar (n % 10) :: ds) := rfl

theorem toDigitsCore_eq (fuel : Nat) :
    ∀ n ds, n < 10 ^ (fuel + 1) →
      Nat.toDigitsCore 10 (fuel + 1) n ds = natDigitsChars n ++ ds := by
  induction fuel with
  | zero =>
    intro n ds h
    have h10 : n < 10 := by simpa using h
    have h0 : n / 10 = 0 := Nat.div_eq_of_lt h10
    rw [toDigitsCore_succ, if_pos h0, natDigitsChars, dif_pos h10,
      Nat.mod_eq_of_lt h10]
    rfl
  | succ fuel ih =>
    intro n ds h
    by_cases h0 : n / 10 = 0
    · have h10 : n < 10 := by
        rcases Nat.lt_or_ge n 10 with hlt | hge
        · exact hlt
        · exact absurd h0 (by
            have : 0 < n / 10 := Nat.div_pos hge (by omega)
            omega)
      rw [toDigitsCore_succ, if_pos h0, natDigitsChars, dif_pos h10,
        Nat.mod_eq_of_lt h10]
      rfl
    · have hge : 10 ≤ n := by
        rcases Nat.lt_or_ge n 10 with hlt | hge
        · exact absurd (Nat.div_eq_of_lt hlt) h0
        · exact hge
      have hdiv : n / 10 < 10 ^ (fuel + 1) := by
        rw [Nat.div_lt_iff_lt_mul (by omega)]
        calc n < 10 ^ (fuel + 1 + 1) := h
        _ = 10 ^ (fuel + 1) * 10 := by ring
      rw [toDigitsCore_succ, if_neg h0, ih (n / 10) _ hdiv]
      conv_rhs => rw [natDigitsChars]
      rw [dif_neg (by omega)]
      simp [List.append_assoc]

theorem repr_data (n : Nat) : (Nat.repr n).data = natDigitsChars n := by
  have h1 : n < 10 ^ (n + 1) :=
    lt_of_lt_of_le (Nat.lt_pow_self (by omega) n)
      (Nat.pow_le_pow_right (by omega) (Nat.le_succ n))
  show (Nat.toDigits 10 n).asString.data = natDigitsChars n
  rw [Nat.toDigits, toDigitsCore_eq n n [] h1, List.append_nil]
  rfl

theorem natPadded_data (v w : Nat) :
    (natPadded v w).data =
      List.replicate (w - (natDigitsChars v).length) '0' ++ natDigitsChars v := by
  simp [natPadded, padStartChars, repr_data]

theorem natPadded_all_digit (v w : Nat) :
    ∀ c ∈ (natPadded v w).data, c.isDigit = true := by
  rw [natPadded_data]
  intro c hc
  rcases List.mem_append.mp hc with h | h
  · rw [List.eq_of_mem_replicate h]; decide
  · exact natDigitsChars_all_digit v c h

theorem digitsVal_replicate_zero (k : Nat) (ds : List Char) :
    digitsVal (List.replicate k '0' ++ ds) = digitsVal ds := by
  induction k with
  | zero => rfl
  | succ k ih =>
    rw [List.replicate_succ, List.cons_append]
    show List.foldl (fun a c => a * 10 + (c.toNat - 48))
      (0 * 10 + ('0'.toNat - 48)) (List.replicate k '0' ++ ds) = digitsVal ds
    have hz : (0 * 10 + ('0'.toNat - 48)) = 0 := by decide
    rw [hz]
    exact ih

theorem digitsToNat_natPadded (v w : Nat) :
    digitsToNat (natPadded v w).data = some v := by
  have hne : (natPadded v w).data ≠ [] := by
    rw [natPadded_data]
    intro hcon
    exact natDigitsChars_ne_nil v (List.append_eq_nil.mp hcon).2
  have hall : (natPadded v w).data.all (·.isDigit) = true :=
    List.all_eq_true.mpr (natPadded_all_digit v w)
  rw [digitsToNat, if_pos ⟨hne, hall⟩, natPadded_data,
    digitsVal_replicate_zero, digitsVal_natDigitsChars]

theorem splitOnChar_no_sep (sep : Char) (l : List Char)
    (h : ∀ c ∈ l, ¬ c = sep) : splitOnChar sep l = [l] := by
  induction l with
  | nil => rfl
  | cons c cs ih =>
    have hc : (c == sep) = false := by
      simp [h c (by simp)]
    rw [splitOnChar]
    rw [if_neg (by simp [hc]), ih (fun x hx => h x (by simp [hx]))]

theorem splitOnChar_append (sep : Char) (xs ys : List Char)
    (h : ∀ c ∈ xs, ¬ c = sep) :
    splitOnChar sep (xs ++ sep :: ys) = xs :: splitOnChar sep ys := by
  induction xs with
  | nil =>
    rw [List.nil_append, splitOnChar, if_pos (by simp)]
  | cons x xs ih =>
    have hx : (x == sep) = false := by
      simp [h x (by simp)]
    rw [List.cons_append, splitOnChar,
      if_neg (by simp [hx]), ih (fun c hc => h c (by simp [hc]))]

theorem isDigit_ne_seps (c : Char) (hc : c.isDigit = true) :
    ¬ c = ',' ∧ ¬ c = ':' := by
  constructor <;> (intro h; subst h; exact absurd hc (by decide))

theorem formatSrtTime_eq (T : Nat) :
    formatSrtTime T =
      natPadded (T / 3600000) 2 ++ ":" ++ natPadded (T % 3600000 / 60000) 2
        ++ ":" ++ natPadded (T % 60000 / 1000) 2 ++ "," ++ natPadded (T % 1000) 3 := by
  have d1 : T % 3600000 % 60000 = T % 60000 :=
    Nat.mod_mod_of_dvd T (by norm_num)
  have d2 : T % 60000 % 1000 = T % 1000 :=
    Nat.mod_mod_of_dvd T (by norm_num)
  simp only [formatSrtTime]
  norm_num [d1, d2]

theorem formatSrtTime_data (T : Nat) :
    (formatSrtTime T).data =
      ((natPadded (T / 3600000) 2).data ++ ':' ::
        ((natPadded (T % 3600000 / 60000) 2).data ++ ':' ::
          (natPadded (T % 60000 / 1000) 2).data)) ++
        ',' :: (natPadded (T % 1000) 3).data := by
  have h1 : (":" : String).data = [':'] := rfl
  have h2 : ("," : String).data = [','] := rfl
  rw [formatSrtTime_eq]
  simp [String.data_append, h1, h2]

theorem parseSrtTime_format (T : Nat) :
    parseSrtTime (formatSrtTime T) =
      some (T / 3600000, T % 3600000 / 60000, T % 60000 / 1000, T % 1000) := by
  have hA := natPadded_all_digit (T / 3600000) 2
  have hB := natPadded_all_digit (T % 3600000 / 60000) 2
  have hC := natPadded_all_digit (T % 60000 / 1000) 2
  have hD := natPadded_all_digit (T % 1000) 3
  have hno_comma : ∀ c ∈ (natPadded (T / 3600000) 2).data ++ ':' ::
      ((natPadded (T % 3600000 / 60000) 2).data ++ ':' ::
        (natPadded (T % 60000 / 1000) 2).data), ¬ c = ',' := by
    intro c hc
    simp only [List.mem_append, List.mem_cons] at hc
    rcases hc with h | rfl | h | rfl | h
    · exact (isDigit_ne_seps c (hA c h)).1
    · decide
    · exact (isDigit_ne_seps c (hB c h)).1
    · decide
    · exact (isDigit_ne_seps c (hC c h)).1
  rw [parseSrtTime, formatSrtTime_data,
    splitOnChar_append ',' _ _ hno_comma,
    splitOnChar_no_sep ',' _ (fun c h => (isDigit_ne_seps c (hD c h)).1)]
  simp only []
  rw [splitOnChar_append ':' _ _ (fun c h => (isDigit_ne_seps c (hA c h)).2),
    splitOnChar_append ':' _ _ (fun c h => (isDigit_ne_seps c (hB c h)).2),
    splitOnChar_no_sep ':' _ (fun c h => (isDigit_ne_seps c (hC c h)).2)]
  simp only []
  rw [digitsToNat_natPadded, digitsToNat_natPadded, digitsToNat_natPadded,
    digitsToNat_natPadded]

/-! ## Claim C7 -/

/-- C7: for every timestamp the parser accepts and every delay, `addDelay`
returns a timestamp whose parsed total milliseconds equal the input's
total plus the delay, with the minute, second and millisecond fields in
canonical carry range; and the two concrete carry examples hold. -/
theorem addDelay_millisecond_exact (t : String) (d h m s ms : Nat)
    (hp : parseSrtTime t = some (h, m, s, ms)) :
    (∃ out h2 m2 s2 ms2, addDelay t d = some out ∧
      parseSrtTime out = some (h2, m2, s2, ms2) ∧
      srtTotalMs h2 m2 s2 ms2 = srtTotalMs h m s ms + d ∧
      m2 < 60 ∧ s2 < 60 ∧ ms2 < 1000) ∧
    addDelay "00:00:10,000" 375 = some "00:00:10,375" ∧
    addDelay "00:00:59,800" 500 = some "00:01:00,300" := by
  refine ⟨?_, by decide, by decide⟩
  set T := srtTotalMs h m s ms + d with hT
  refine ⟨formatSrtTime T, T / 3600000, T % 3600000 / 60000, T % 60000 / 1000,
    T % 1000, ?_, parseSrtTime_format T, ?_, by omega, by omega, by omega⟩
  · rw [addDelay, hp]
  · rw [srtTotalMs]
    omega

/-- C7, witness at a concrete timestamp and delay. -/
theorem addDelay_millisecond_exact_witness :
    (∃ out h2 m2 s2 ms2, addDelay "01:02:03,004" 500 = some out ∧
      parseSrtTime out = some (h2, m2, s2, ms2) ∧
      srtTotalMs h2 m2 s2 ms2 = srtTotalMs 1 2 3 4 + 500 ∧
      m2 < 60 ∧ s2 < 60 ∧ ms2 < 1000) ∧
    addDelay "00:00:10,000" 375 = some "00:00:10,375" ∧
    addDelay "00:00:59,800" 500 = some "00:01:00,300" :=
  addDelay_millisecond_exact "01:02:03,004" 500 1 2 3 4 (by decide)

/-! ## Claim C10 -/

/-- C10: when the input total plus the delay reaches 24 hours, `addDelay`
does not reduce the hour field modulo 24 — the returned timestamp parses
back with an hour component equal to the full quotient of the total
milliseconds by 3600000 (hence at least 24); concretely,
`addDelay("23:59:59,900", 200)` is `"24:00:00,100"`, not a wrap to
`"00:00:00,100"`. -/
theorem addDelay_hours_not_wrapped (t : String) (d h m s ms : Nat)
    (hp : parseSrtTime t = some (h, m, s, ms))
    (hbig : 24 * 3600000 ≤ srtTotalMs h m s ms + d) :
    (∃ out h2 m2 s2 ms2, addDelay t d = some out ∧
      parseSrtTime out = some (h2, m2, s2, ms2) ∧
      h2 = (srtTotalMs h m s ms + d) / 3600000 ∧ 24 ≤ h2) ∧
    addDelay "23:59:59,900" 200 = some "24:00:00,100" := by
  refine ⟨?_, by decide⟩
  set T := srtTotalMs h m s ms + d with hT
  refine ⟨formatSrtTime T, T / 3600000, T % 3600000 / 60000, T % 60000 / 1000,
    T % 1000, ?_, parseSrtTime_format T, rfl, ?_⟩
  · rw [addDelay, hp]
  · omega

/-- C10, witness at the boundary-crossing concrete input. -/
theorem addDelay_hours_not_wrapped_witness :
    (∃ out h2 m2 s2 ms2, addDelay "23:59:59,900" 200 = some out ∧
      parseSrtTime out = some (h2, m2, s2, ms2) ∧
      h2 = (srtTotalMs 23 59 59 900 + 200) / 3600000 ∧ 24 ≤ h2) ∧
    addDelay "23:59:59,900" 200 = some "24:00:00,100" :=
  addDelay_hours_not_wrapped "23:59:59,900" 200 23 59 59 900 (by decide)
    (by decide)

/-- C5, witness at the three-episode example list. -/
theorem series_status_aggregation_witness :
    (processSeriesEvents [EpisodeOutcome.transcoded, EpisodeOutcome.failed,
      EpisodeOutcome.transcoded]).head? =
      some (PipelineEvent.setSeriesStatus TranscodeStatus.IN_PROGRESS) :=
  (series_status_aggregation [.transcoded, .failed, .transcoded]).1

/-- C9, witness at a concrete discovered set. -/
theorem master_content_deterministic_shape_witness :
    buildMasterContent [] [] ["1080p"] =
      "#EXTM3U\n\n" ++ audioSection [] ++ subtitleSection []
        ++ "# Video streams\n"
        ++ videoSection
            (if 0 < ([] : List MediaTrack).length then ",AUDIO=\"audio\"" else "")
            (if 0 < ([] : List MediaTrack).length then ",SUBTITLES=\"subs\"" else "")
            ["1080p"] :=
  (master_content_deterministic_shape [] [] ["1080p"]).1
